import Mathlib

/-!
Shallow embedding of `src/github/token-manager.ts` (class `TokenManager`):
token caching with a validity buffer, single-flight refresh coordination,
retry with exponential backoff, credential exchange, and the 401/403
reauthentication hook of the produced API clients.

Timestamps are integers in milliseconds.  JavaScript truthiness of optional
strings (`null`/`undefined`/`""` are falsy) is modelled by `truthy`.
Asynchronous, effectful methods are embedded as pure functions returning the
new state together with an explicit trace of the effects (network calls,
log lines, delays slept), and the event-loop interleaving of concurrent
`refreshToken` callers is a step relation on a coordinator state.
-/

namespace TokenMgr

/-- Cached token lifetime in milliseconds: 55 minutes
(`TOKEN_LIFETIME_MS`, token-manager.ts line 21). -/
def TOKEN_LIFETIME_MS : Int := 55 * 60 * 1000

/-- Validity buffer in milliseconds: 5 minutes
(`expiryBuffer`, token-manager.ts line 49). -/
def expiryBuffer : Int := 5 * 60 * 1000

/-- Synthetic lifetime assigned to an override token: one year in
milliseconds (token-manager.ts line 79). -/
def OVERRIDE_LIFETIME_MS : Int := 365 * 24 * 60 * 60 * 1000

/-- JavaScript truthiness of an optional string: `null`/`undefined` and the
empty string are falsy.  Returns the string when truthy, `none` otherwise. -/
def truthy (o : Option String) : Option String :=
  match o with
  | some s => if s = "" then none else some s
  | none => none

/-- The mutable instance fields of class `TokenManager`
(token-manager.ts lines 18-20): `token`, `tokenExpiry`, `refreshPromise`.
The in-flight refresh promise is identified by a numeric id. -/
structure ManagerState where
  token : Option String
  tokenExpiry : Option Int
  refreshPromise : Option Nat
deriving Repr, DecidableEq

/-- Method `isTokenValid` (token-manager.ts lines 44-51): false when the token is
absent/empty or the expiry is absent; otherwise true iff `now` is strictly
before the expiry minus the 5-minute buffer. -/
def isTokenValid (s : ManagerState) (now : Int) : Bool :=
  match truthy s.token, s.tokenExpiry with
  | some _, some exp => decide (now < exp - expiryBuffer)
  | _, _ => false

/-- The spec's validity predicate, stated in its own words for comparison
with `isTokenValid`: valid(now) iff the token is non-null and now is
strictly before expiresAt minus the buffer. -/
def validSpec (s : ManagerState) (now : Int) : Prop :=
  ∃ t exp, s.token = some t ∧ s.tokenExpiry = some exp ∧ now < exp - expiryBuffer

/-- Method `resetInstance` (token-manager.ts lines 253-257): clears the cached
token, the expiry, and the in-flight refresh promise. -/
def resetInstance (_s : ManagerState) : ManagerState :=
  { token := none, tokenExpiry := none, refreshPromise := none }

/-! ## Retry executor (`retryWithBackoff`, lines 218-250) -/

/-- Type `RetryOptions` with the default policy of `retryWithBackoff`
(token-manager.ts lines 222-227).  `maxAttempts` is an `Int` so that
nonpositive values (for which the attempt loop never runs) are
representable. -/
structure RetryOptions where
  maxAttempts : Int := 3
  initialDelayMs : Nat := 5000
  maxDelayMs : Nat := 20000
  backoffFactor : Nat := 2
deriving Repr, DecidableEq

/-- Trace of one `retryWithBackoff` run: the outcome (`Except` error is the
thrown `lastError`, `none` standing for the still-`undefined` one), the
number of invocations of the operation, and the delays slept, in order. -/
structure RetryTrace (E A : Type) where
  result : Except (Option E) A
  calls : Nat
  delays : List Nat
deriving Repr

/-- The attempt loop of `retryWithBackoff` (token-manager.ts lines 232-249),
by recursion on the number of attempts remaining.  `op k` is the outcome of
the k-th invocation of `operation`.  On success return at once; on failure
record the error, and only when further attempts remain sleep `delayMs` and
continue with `min (delayMs * factor) maxDelay`; when the loop is exhausted
throw the last recorded error. -/
def retryAux (op : Nat → Except E A) (factor maxDelay : Nat) :
    Nat → Nat → Nat → Option E → RetryTrace E A
  | 0, _, _, last => ⟨.error last, 0, []⟩
  | rem + 1, attempt, delayMs, _ =>
    match op attempt with
    | .ok a => ⟨.ok a, 1, []⟩
    | .error e =>
      let rest := retryAux op factor maxDelay rem (attempt + 1)
        (min (delayMs * factor) maxDelay) (some e)
      ⟨rest.result, rest.calls + 1, if rem = 0 then [] else delayMs :: rest.delays⟩

/-- Method `retryWithBackoff` (token-manager.ts lines 218-250).  A nonpositive
`maxAttempts` runs the loop zero times, exactly as the source's
`for (let attempt = 1; attempt <= maxAttempts; ...)`. -/
def retryWithBackoff (op : Nat → Except E A) (opts : RetryOptions) : RetryTrace E A :=
  retryAux op opts.backoffFactor opts.maxDelayMs opts.maxAttempts.toNat 1
    opts.initialDelayMs none

/-- The delay slept before retry number n+1 under the given policy:
`delaySeq 0 = initial`, and each later delay is
`min (previous * factor) maxDelay` (token-manager.ts line 243). -/
def delaySeq (initial factor maxDelay : Nat) : Nat → Nat
  | 0 => initial
  | n + 1 => min (delaySeq initial factor maxDelay n * factor) maxDelay

/-! ## Credential exchange (`exchangeForAppToken`, lines 116-150) -/

/-- The parts of the HTTP response that `exchangeForAppToken` inspects:
the success flag and status of the response, and the parsed JSON body's
optional `error.message`, `token` and `app_token` fields. -/
structure HttpResponse where
  ok : Bool
  status : Nat
  statusText : String
  errorMessage : Option String
  token : Option String
  app_token : Option String
deriving Repr, DecidableEq

/-- Outcome of `exchangeForAppToken`: the returned token or thrown error
message, together with the `console.error` lines emitted. -/
structure ExchangeOutcome where
  result : Except String String
  logs : List String
deriving Repr

/-- Method `exchangeForAppToken` (token-manager.ts lines 116-150) applied to the
response of the fixed POST.  On non-ok status it throws the body's
`error.message` if present (nullish-coalesced to "Unknown error") and logs
a line carrying the status code; on ok status it returns
`token || app_token` (JavaScript falsy fallback: first non-empty wins) and
throws "App token not found in response" when both are falsy. -/
def exchangeForAppToken (resp : HttpResponse) : ExchangeOutcome :=
  if resp.ok = false then
    let msg := resp.errorMessage.getD "Unknown error"
    { result := .error msg
      logs := ["App token exchange failed: " ++ toString resp.status ++ " "
        ++ resp.statusText ++ " - " ++ msg] }
  else
    match truthy resp.token with
    | some t => { result := .ok t, logs := [] }
    | none =>
      match truthy resp.app_token with
      | some t => { result := .ok t, logs := [] }
      | none => { result := .error "App token not found in response", logs := [] }

/-! ## Refresh (`doRefresh`, lines 69-102) and `getToken` (lines 32-37) -/

/-- The environment a refresh runs against: the `OVERRIDE_GITHUB_TOKEN`
environment variable, and the outcomes of the k-th OIDC acquisition attempt
and of the k-th exchange attempt for a given OIDC token. -/
structure Env where
  overrideToken : Option String
  oidc : Nat → Except String String
  exchange : String → Nat → Except String String

/-- The `Token refresh failed: ...` wrapping of the catch block
(token-manager.ts line 100); a still-`undefined` error stringifies as
"undefined". -/
def wrapRefreshError : Option String → String
  | some e => "Token refresh failed: Error: " ++ e
  | none => "Token refresh failed: undefined"

/-- Outcome of one `doRefresh` run: the manager state afterwards, the
returned token or thrown error, and how many network-bound operations
(OIDC acquisitions plus exchange calls) were invoked. -/
structure RefreshOutcome where
  state : ManagerState
  result : Except String String
  networkCalls : Nat
deriving Repr

/-- Method `doRefresh` (token-manager.ts lines 69-102).  A truthy
`OVERRIDE_GITHUB_TOKEN` is adopted verbatim with a one-year expiry and no
network calls; otherwise the OIDC acquisition and then the exchange each
run under `retryWithBackoff` with the default policy, a surviving failure
leaves the stored fields untouched and throws the wrapped error, and a
success overwrites token and expiry together. -/
def doRefresh (env : Env) (s : ManagerState) (now : Int) : RefreshOutcome :=
  match truthy env.overrideToken with
  | some t =>
    { state := { s with token := some t, tokenExpiry := some (now + OVERRIDE_LIFETIME_MS) }
      result := .ok t
      networkCalls := 0 }
  | none =>
    let r1 := retryWithBackoff env.oidc {}
    match r1.result with
    | .error e =>
      { state := s
        result := .error (wrapRefreshError e)
        networkCalls := r1.calls }
    | .ok oidcToken =>
      let r2 := retryWithBackoff (env.exchange oidcToken) {}
      match r2.result with
      | .error e =>
        { state := s
          result := .error (wrapRefreshError e)
          networkCalls := r1.calls + r2.calls }
      | .ok appToken =>
        { state := { s with token := some appToken, tokenExpiry := some (now + TOKEN_LIFETIME_MS) }
          result := .ok appToken
          networkCalls := r1.calls + r2.calls }

/-- Outcome of one `getToken` call by a single caller: the state afterwards,
the returned token or thrown error, whether a refresh ran, and the network
calls issued. -/
structure GetTokenOutcome where
  state : ManagerState
  result : Except String String
  refreshed : Bool
  networkCalls : Nat
deriving Repr

/-- Method `getToken` (token-manager.ts lines 32-37) for a single caller with no
refresh already in flight: return the cached token with no side effects
when `isTokenValid`, otherwise delegate to the refresh. -/
def getToken (env : Env) (s : ManagerState) (now : Int) : GetTokenOutcome :=
  if isTokenValid s now then
    { state := s
      result := .ok (s.token.getD "")
      refreshed := false
      networkCalls := 0 }
  else
    let r := doRefresh env s now
    { state := r.state
      result := r.result
      refreshed := true
      networkCalls := r.networkCalls }

/-! ## Refresh coordinator (`refreshToken`, lines 53-67)

`refreshToken` runs synchronously from its entry to the first suspension
point, so the check of `refreshPromise` (line 55) and its assignment
(line 60) form one atomic step on the single-threaded event loop.  The
interleaving of concurrent callers is therefore faithfully captured by a
step relation with two events: a caller invoking `refreshToken`, and the
in-flight `doRefresh` promise settling (at which point every awaiting
caller resumes with the settled outcome and the starter's `finally` clears
`refreshPromise`, lines 64-66). -/

/-- The settled outcome of a refresh: the token, or the thrown error. -/
abbrev Outcome := Except String String

/-- Global state of the refresh coordinator: `inFlight` is the
`refreshPromise` field (identified by a numeric id), `nextId` a supply of
fresh ids, `started` the number of `doRefresh` invocations so far,
`waiting` the callers currently awaiting an in-flight promise (paired with
its id, in arrival order), and `observed` the outcomes delivered to
callers, in delivery order. -/
structure CoordState where
  inFlight : Option Nat
  nextId : Nat
  started : Nat
  waiting : List (Nat × Nat)
  observed : List (Nat × Outcome)

/-- Events of the coordinator: caller `c` invokes `refreshToken`, or the
in-flight refresh settles with outcome `o`. -/
inductive CoordEv where
  | call (c : Nat)
  | settle (o : Outcome)

/-- One step of the coordinator (token-manager.ts lines 53-67).  A call
while a refresh is in flight joins it (lines 55-58); a call while idle
starts a fresh `doRefresh` and awaits it (lines 60-62); a settlement
delivers the same outcome to every caller awaiting that promise and
unconditionally clears `refreshPromise` (the starter's `finally`,
lines 64-66).  A settle event while idle is a no-op. -/
def coordStep (s : CoordState) : CoordEv → CoordState
  | .call c =>
    match s.inFlight with
    | some r => { s with waiting := s.waiting ++ [(c, r)] }
    | none =>
      { s with inFlight := some s.nextId
               nextId := s.nextId + 1
               started := s.started + 1
               waiting := s.waiting ++ [(c, s.nextId)] }
  | .settle o =>
    match s.inFlight with
    | some r =>
      { s with inFlight := none
               waiting := s.waiting.filter (fun p => p.2 != r)
               observed := s.observed ++
                 (s.waiting.filter (fun p => p.2 == r)).map (fun p => (p.1, o)) }
    | none => s

/-- Run the coordinator over a list of events. -/
def coordRun (s : CoordState) (evs : List CoordEv) : CoordState :=
  evs.foldl coordStep s

/-- The idle coordinator with no history. -/
def coordInit : CoordState :=
  { inFlight := none, nextId := 0, started := 0, waiting := [], observed := [] }

/-! ## Reauthentication hook (`createOctokitWithRetry`, lines 152-216)

The REST hook (lines 159-178) and the GraphQL hook (lines 189-208) are
textually identical; one definition embeds both.  A request outcome is
`Except (Option Nat) A`: an error carries the `status` field of the thrown
error when it has one. -/

/-- What a hooked request can fail with: the underlying request's error
(with its optional HTTP status), or the failure of the token refresh
awaited inside the hook. -/
inductive HookError where
  | request (status : Option Nat)
  | refreshFailed (msg : String)
deriving Repr, DecidableEq

/-- Trace of one hooked request: the outcome, the number of times the
underlying request ran, the number of refreshes triggered, and the
authorization header in force for the last issuance. -/
structure HookTrace (A : Type) where
  result : Except HookError A
  requestCalls : Nat
  refreshCalls : Nat
  authHeader : String
deriving Repr

/-- The hook's trigger condition (lines 164 and 194):
`error.status === 401 || error.status === 403`. -/
def isAuthStatus (st : Option Nat) : Bool :=
  st == some 401 || st == some 403

/-- The request hook (token-manager.ts lines 159-178 and 189-208).
`req k` is the outcome of the k-th issuance of the request, `refresh` the
outcome `refreshToken` would settle with, `auth0` the authorization header
initially in force.  On a 401/403 failure the hook refreshes once, rewrites
the header to the new token, and retries exactly once; every other failure,
and any failure of the retry, propagates unchanged. -/
def requestHook (refresh : Except String String) (req : Nat → Except (Option Nat) A)
    (auth0 : String) : HookTrace A :=
  match req 1 with
  | .ok a => { result := .ok a, requestCalls := 1, refreshCalls := 0, authHeader := auth0 }
  | .error st =>
    if isAuthStatus st then
      match refresh with
      | .error msg =>
        { result := .error (.refreshFailed msg), requestCalls := 1, refreshCalls := 1,
          authHeader := auth0 }
      | .ok newToken =>
        let auth := "token " ++ newToken
        match req 2 with
        | .ok a => { result := .ok a, requestCalls := 2, refreshCalls := 1, authHeader := auth }
        | .error st2 =>
          { result := .error (.request st2), requestCalls := 2, refreshCalls := 1,
            authHeader := auth }
    else
      { result := .error (.request st), requestCalls := 1, refreshCalls := 0,
        authHeader := auth0 }

/-! ## Concrete environments and operations used to instantiate theorems -/

/-- An environment with no override and an unreachable network. -/
def envNull : Env :=
  { overrideToken := none
    oidc := fun _ => .error "net down"
    exchange := fun _ _ => .error "net down" }

/-- An environment with `OVERRIDE_GITHUB_TOKEN` set to "override-token". -/
def envOverride : Env :=
  { overrideToken := some "override-token"
    oidc := fun _ => .error "net down"
    exchange := fun _ _ => .error "net down" }

/-- An environment where both network steps succeed at once. -/
def envHappy : Env :=
  { overrideToken := none
    oidc := fun _ => .ok "mock-oidc-token"
    exchange := fun _ _ => .ok "mock-app-token" }

/-- An operation failing on attempts 1 and 2 and succeeding on attempt 3. -/
def opThirdTime : Nat → Except String Nat :=
  fun k => if 3 ≤ k then .ok 42 else .error "transient"

/-- A request failing with 401 on its first issuance and succeeding on the
retry. -/
def reqAuthOnce : Nat → Except (Option Nat) Nat :=
  fun k => if k = 1 then .error (some 401) else .ok 7

/-- A request failing with 401 on every issuance. -/
def reqAuthAlways : Nat → Except (Option Nat) Nat :=
  fun _ => .error (some 401)

/-! ## Lemmas about the retry executor -/

theorem retryAux_calls_le {E A : Type} (op : Nat → Except E A) (f M : Nat) :
    ∀ (rem attempt d : Nat) (last : Option E),
      (retryAux op f M rem attempt d last).calls ≤ rem := by
  intro rem
  induction rem with
  | zero => intro attempt d last; simp [retryAux]
  | succ r ih =>
    intro attempt d last
    simp only [retryAux]
    cases hop : op attempt with
    | ok a => simp
    | error e =>
      simp only
      exact Nat.succ_le_succ (ih (attempt + 1) (min (d * f) M) (some e))

theorem retryAux_calls_pos {E A : Type} (op : Nat → Except E A) (f M : Nat)
    (rem attempt d : Nat) (last : Option E) (h : 1 ≤ rem) :
    1 ≤ (retryAux op f M rem attempt d last).calls := by
  cases rem with
  | zero => omega
  | succ r =>
    simp only [retryAux]
    cases hop : op attempt with
    | ok a => simp
    | error e => simp

theorem delaySeq_shift (d f M : Nat) :
    ∀ n, delaySeq (min (d * f) M) f M n = delaySeq d f M (n + 1) := by
  intro n
  induction n with
  | zero => rfl
  | succ k ih => simp [delaySeq, ih]

theorem retryAux_delays {E A : Type} (op : Nat → Except E A) (f M : Nat) :
    ∀ (rem attempt d : Nat) (last : Option E),
      (retryAux op f M rem attempt d last).delays =
        (List.range ((retryAux op f M rem attempt d last).calls - 1)).map
          (delaySeq d f M) := by
  intro rem
  induction rem with
  | zero => intro attempt d last; simp [retryAux]
  | succ r ih =>
    intro attempt d last
    simp only [retryAux]
    cases hop : op attempt with
    | ok a => simp
    | error e =>
      simp only
      by_cases hr : r = 0
      · subst hr; simp [retryAux]
      · have hpos : 1 ≤ (retryAux op f M r (attempt + 1) (min (d * f) M) (some e)).calls :=
          retryAux_calls_pos op f M r (attempt + 1) (min (d * f) M) (some e) (by omega)
        obtain ⟨c, hc⟩ : ∃ c,
            (retryAux op f M r (attempt + 1) (min (d * f) M) (some e)).calls = c + 1 :=
          ⟨_, (Nat.succ_pred_eq_of_pos hpos).symm⟩
        have hrest := ih (attempt + 1) (min (d * f) M) (some e)
        rw [hc] at hrest
        simp only [Nat.add_sub_cancel] at hrest
        rw [if_neg hr, hrest, hc]
        simp only [Nat.add_sub_cancel, List.range_succ_eq_map, List.map_cons, List.map_map]
        refine congrArg₂ _ rfl ?_
        refine List.map_congr_left ?_
        intro n _
        simp [Function.comp, delaySeq_shift]

theorem retryAux_first_ok {E A : Type} (op : Nat → Except E A) (f M : Nat) :
    ∀ (rem attempt d : Nat) (last : Option E) (k : Nat) (v : A),
      attempt ≤ k → k < attempt + rem → op k = .ok v →
      (∀ j, attempt ≤ j → j < k → ∃ e, op j = .error e) →
      (retryAux op f M rem attempt d last).result = .ok v ∧
        (retryAux op f M rem attempt d last).calls = k + 1 - attempt := by
  intro rem
  induction rem with
  | zero => intro attempt d last k v h1 h2 _ _; omega
  | succ r ih =>
    intro attempt d last k v h1 h2 hok hfail
    rcases Nat.eq_or_lt_of_le h1 with heq | hlt
    · subst heq
      simp [retryAux, hok, Nat.add_sub_cancel_left]
    · obtain ⟨e, he⟩ := hfail attempt le_rfl hlt
      simp only [retryAux, he]
      obtain ⟨hres, hcalls⟩ := ih (attempt + 1) (min (d * f) M) (some e) k v hlt
        (by omega) hok (fun j hj1 hj2 => hfail j (by omega) hj2)
      refine ⟨hres, ?_⟩
      simp only [hcalls]
      omega

theorem retryAux_all_fail {E A : Type} (op : Nat → Except E A) (f M : Nat) :
    ∀ (rem : Nat), 1 ≤ rem → ∀ (attempt d : Nat) (last : Option E) (e : E),
      (∀ j, attempt ≤ j → j < attempt + rem → ∃ e', op j = .error e') →
      op (attempt + rem - 1) = .error e →
      (retryAux op f M rem attempt d last).result = .error (some e) ∧
        (retryAux op f M rem attempt d last).calls = rem := by
  intro rem
  induction rem with
  | zero => omega
  | succ r ih =>
    intro _ attempt d last e hall hlast
    by_cases hr : r = 0
    · subst hr
      have hlast' : op attempt = .error e := by
        have harith : attempt + 1 - 1 = attempt := by omega
        rw [harith] at hlast
        exact hlast
      simp [retryAux, hlast']
    · obtain ⟨e0, he0⟩ := hall attempt le_rfl (by omega)
      simp only [retryAux, he0]
      have hlast' : op (attempt + 1 + r - 1) = .error e := by
        have harith : attempt + 1 + r - 1 = attempt + (r + 1) - 1 := by omega
        rw [harith]
        exact hlast
      obtain ⟨hres, hcalls⟩ := ih (by omega) (attempt + 1) (min (d * f) M) (some e0) e
        (fun j hj1 hj2 => hall j (by omega) (by omega)) hlast'
      exact ⟨hres, by simp [hcalls]⟩

/-- C3: `retryWithBackoff` invokes the operation at most `maxAttempts`
times; the delays slept are exactly the backoff sequence starting at
`initialDelayMs` with `delay = min (delay * backoffFactor) maxDelayMs`, one
fewer than the invocations made (so never after the final attempt); the
first successful attempt's result is returned at once with no further
invocation; and when every attempt fails the run fails with the final
attempt's error, earlier ones discarded. -/
theorem claim_C3 {E A : Type} (op : Nat → Except E A) (opts : RetryOptions)
    (hmax : 1 ≤ opts.maxAttempts) :
    (retryWithBackoff op opts).calls ≤ opts.maxAttempts.toNat
    ∧ (retryWithBackoff op opts).delays =
        (List.range ((retryWithBackoff op opts).calls - 1)).map
          (delaySeq opts.initialDelayMs opts.backoffFactor opts.maxDelayMs)
    ∧ (retryWithBackoff op opts).calls - 1 < opts.maxAttempts.toNat
    ∧ (∀ k v, 1 ≤ k → k ≤ opts.maxAttempts.toNat → op k = .ok v →
        (∀ j, 1 ≤ j → j < k → ∃ e, op j = .error e) →
        (retryWithBackoff op opts).result = .ok v
          ∧ (retryWithBackoff op opts).calls = k)
    ∧ (∀ e, (∀ j, 1 ≤ j → j ≤ opts.maxAttempts.toNat → ∃ e', op j = .error e') →
        op opts.maxAttempts.toNat = .error e →
        (retryWithBackoff op opts).result = .error (some e)
          ∧ (retryWithBackoff op opts).calls = opts.maxAttempts.toNat) := by
  have hn : 1 ≤ opts.maxAttempts.toNat := by omega
  refine ⟨retryAux_calls_le op _ _ _ _ _ _, retryAux_delays op _ _ _ _ _ _, ?hlt, ?hok, ?hfail⟩
  · have hle := retryAux_calls_le op opts.backoffFactor opts.maxDelayMs
      opts.maxAttempts.toNat 1 opts.initialDelayMs none
    have hpos := retryAux_calls_pos op opts.backoffFactor opts.maxDelayMs
      opts.maxAttempts.toNat 1 opts.initialDelayMs none hn
    unfold retryWithBackoff
    omega
  · intro k v hk1 hk2 hok hfail
    have := retryAux_first_ok op opts.backoffFactor opts.maxDelayMs
      opts.maxAttempts.toNat 1 opts.initialDelayMs none k v hk1 (by omega) hok
      (fun j hj1 hj2 => hfail j hj1 hj2)
    refine ⟨this.1, ?_⟩
    unfold retryWithBackoff
    rw [this.2]
    omega
  · intro e hall hlast
    have := retryAux_all_fail op opts.backoffFactor opts.maxDelayMs
      opts.maxAttempts.toNat hn 1 opts.initialDelayMs none e
      (fun j hj1 hj2 => hall j hj1 (by omega))
      (by
        have harith : 1 + opts.maxAttempts.toNat - 1 = opts.maxAttempts.toNat := by omega
        rw [harith]
        exact hlast)
    exact ⟨this.1, this.2⟩

/-- C3 witness: under the default policy, an operation failing on attempts
1 and 2 and succeeding on attempt 3 makes exactly 3 invocations, returns
the attempt-3 result, and sleeps 5000 ms then 10000 ms. -/
theorem claim_C3_witness :
    (retryWithBackoff opThirdTime {}).result = .ok 42
    ∧ (retryWithBackoff opThirdTime {}).calls = 3
    ∧ (retryWithBackoff opThirdTime {}).delays = [5000, 10000] := by
  have h := claim_C3 opThirdTime {} (by decide)
  have hok := h.2.2.2.1 3 42 (by decide) (by decide) rfl
    (by
      intro j hj1 hj2
      interval_cases j
      · exact ⟨"transient", rfl⟩
      · exact ⟨"transient", rfl⟩)
  refine ⟨hok.1, hok.2, ?_⟩
  have hd := h.2.1
  rw [hok.2] at hd
  rw [hd]
  decide

/-- C10: with a nonpositive `maxAttempts` the attempt loop body never runs,
the operation is never invoked, and the executor throws the
still-`undefined` `lastError` (modelled as `none`). -/
theorem claim_C10 {E A : Type} (op : Nat → Except E A) (opts : RetryOptions)
    (hmax : opts.maxAttempts ≤ 0) :
    (retryWithBackoff op opts).result = .error none
    ∧ (retryWithBackoff op opts).calls = 0
    ∧ (retryWithBackoff op opts).delays = [] := by
  have h0 : opts.maxAttempts.toNat = 0 := Int.toNat_of_nonpos hmax
  rw [retryWithBackoff, h0]
  simp [retryAux]

/-- C10 witness: a concrete run with `maxAttempts = 0` performs zero
invocations and fails with the undefined last error. -/
theorem claim_C10_witness :
    (retryWithBackoff opThirdTime { maxAttempts := 0 }).result = .error none
    ∧ (retryWithBackoff opThirdTime { maxAttempts := 0 }).calls = 0 := by
  have h := claim_C10 opThirdTime { maxAttempts := 0 } (by decide)
  exact ⟨h.1, h.2.1⟩

/-! ## Lemmas about `doRefresh` -/

theorem doRefresh_ok (env : Env) (s : ManagerState) (now : Int) (t : String)
    (h : (doRefresh env s now).result = .ok t) :
    ∃ exp, (doRefresh env s now).state =
      { s with token := some t, tokenExpiry := some exp } := by
  unfold doRefresh at h ⊢
  cases hov : truthy env.overrideToken with
  | some u =>
    simp only [hov] at h ⊢
    simp only [Except.ok.injEq] at h
    subst h
    exact ⟨now + OVERRIDE_LIFETIME_MS, rfl⟩
  | none =>
    simp only [hov] at h ⊢
    cases hr1 : (retryWithBackoff env.oidc {}).result with
    | error e => simp [hr1] at h
    | ok oidcToken =>
      simp only [hr1] at h ⊢
      cases hr2 : (retryWithBackoff (env.exchange oidcToken) {}).result with
      | error e => simp [hr2] at h
      | ok appToken =>
        simp only [hr2, Except.ok.injEq] at h ⊢
        subst h
        exact ⟨now + TOKEN_LIFETIME_MS, rfl⟩

theorem doRefresh_error (env : Env) (s : ManagerState) (now : Int) (e : String)
    (h : (doRefresh env s now).result = .error e) :
    (doRefresh env s now).state = s := by
  unfold doRefresh at h ⊢
  cases hov : truthy env.overrideToken with
  | some u => simp [hov] at h
  | none =>
    simp only [hov] at h ⊢
    cases hr1 : (retryWithBackoff env.oidc {}).result with
    | error e1 => simp [hr1]
    | ok oidcToken =>
      simp only [hr1] at h ⊢
      cases hr2 : (retryWithBackoff (env.exchange oidcToken) {}).result with
      | error e2 => simp [hr2]
      | ok appToken => simp [hr2] at h

/-- C2: cache hit and validity predicate.  `isTokenValid` agrees with the
spec predicate valid(now) iff token non-null and now strictly before
expiresAt minus the 5-minute buffer (for the records the manager stores,
whose token is never the empty string); `getToken` returns the cached value
with no state change, no refresh and no network calls exactly when the
predicate holds, and otherwise delegates to the refresh; and a record
stored with the 55-minute lifetime at time tIssued is valid precisely
before tIssued + 50 minutes. -/
theorem claim_C2 (env : Env) (s : ManagerState) (now : Int)
    (hwf : ∀ t, s.token = some t → t ≠ "") :
    (isTokenValid s now = true ↔ validSpec s now)
    ∧ (∀ t, s.token = some t → isTokenValid s now = true →
        getToken env s now =
          { state := s, result := .ok t, refreshed := false, networkCalls := 0 })
    ∧ (isTokenValid s now = false →
        getToken env s now =
          { state := (doRefresh env s now).state
            result := (doRefresh env s now).result
            refreshed := true
            networkCalls := (doRefresh env s now).networkCalls })
    ∧ (∀ (t : String) (tIssued : Int) (rp : Option Nat), t ≠ "" →
        (isTokenValid ⟨some t, some (tIssued + TOKEN_LIFETIME_MS), rp⟩ now = true
          ↔ now < tIssued + 50 * 60 * 1000)) := by
  refine ⟨?_, ?_, ?_, ?_⟩
  · cases ht : s.token with
    | none => simp [isTokenValid, validSpec, truthy, ht]
    | some t =>
      have hne := hwf t ht
      cases hexp : s.tokenExpiry with
      | none => simp [isTokenValid, validSpec, truthy, ht, hexp, hne]
      | some exp => simp [isTokenValid, validSpec, truthy, ht, hexp, hne]
  · intro t ht hv
    unfold getToken
    rw [if_pos hv]
    simp [ht]
  · intro hv
    unfold getToken
    rw [if_neg (by simp [hv])]
  · intro t tIssued rp hne
    simp only [isTokenValid, truthy, if_neg hne, TOKEN_LIFETIME_MS, expiryBuffer,
      decide_eq_true_eq]
    constructor <;> intro h <;> omega

/-- C2 witness: a token stored at time 100 with the 55-minute lifetime is
valid one millisecond before the 50-minute mark and invalid at it. -/
theorem claim_C2_witness :
    isTokenValid ⟨some "tok", some (100 + TOKEN_LIFETIME_MS), none⟩ (100 + 2999999) = true
    ∧ isTokenValid ⟨some "tok", some (100 + TOKEN_LIFETIME_MS), none⟩ (100 + 3000000) = false := by
  constructor
  · exact ((claim_C2 envNull ⟨some "tok", some (100 + TOKEN_LIFETIME_MS), none⟩ (100 + 2999999)
      (by intro t ht; injection ht with h; subst h; decide)).2.2.2
        "tok" 100 none (by decide)).mpr (by decide)
  · decide

/-- C4: a present, non-empty `OVERRIDE_GITHUB_TOKEN` is adopted verbatim
with the synthetic one-year expiry and zero network calls, and (when the
cache does not hit) `getToken` returns exactly the override string with
zero network calls. -/
theorem claim_C4 (env : Env) (s : ManagerState) (now : Int) (t : String)
    (hov : env.overrideToken = some t) (hne : t ≠ "") :
    doRefresh env s now =
      { state := { s with token := some t, tokenExpiry := some (now + OVERRIDE_LIFETIME_MS) }
        result := .ok t
        networkCalls := 0 }
    ∧ (isTokenValid s now = false →
        (getToken env s now).result = .ok t ∧ (getToken env s now).networkCalls = 0) := by
  have htr : truthy env.overrideToken = some t := by simp [truthy, hov, hne]
  constructor
  · simp [doRefresh, htr]
  · intro hv
    unfold getToken
    rw [if_neg (by simp [hv])]
    simp [doRefresh, htr]

/-- C4 witness: with the override configured to "override-token" and a cold
cache, `getToken` returns "override-token" and issues zero network calls. -/
theorem claim_C4_witness :
    (getToken envOverride ⟨none, none, none⟩ 0).result = .ok "override-token"
    ∧ (getToken envOverride ⟨none, none, none⟩ 0).networkCalls = 0 :=
  (claim_C4 envOverride ⟨none, none, none⟩ 0 "override-token" rfl (by decide)).2 (by decide)

/-- C7: on a successful refresh the token value and the expiry are
overwritten together (and nothing else changes); on a failed refresh the
whole state is exactly as before — never partially updated. -/
theorem claim_C7 (env : Env) (s : ManagerState) (now : Int) :
    (∀ t, (doRefresh env s now).result = .ok t →
      ∃ exp, (doRefresh env s now).state =
        { s with token := some t, tokenExpiry := some exp })
    ∧ (∀ e, (doRefresh env s now).result = .error e →
      (doRefresh env s now).state = s) :=
  ⟨fun t h => doRefresh_ok env s now t h, fun e h => doRefresh_error env s now e h⟩

/-- C7 witness: a successful refresh overwrites both fields together, and a
refresh whose network steps all fail leaves the prior record untouched. -/
theorem claim_C7_witness :
    (∃ exp, (doRefresh envHappy ⟨none, none, none⟩ 0).state =
      { token := some "mock-app-token", tokenExpiry := some exp, refreshPromise := none })
    ∧ (doRefresh envNull ⟨some "old", some 5, some 3⟩ 0).state =
      ⟨some "old", some 5, some 3⟩ := by
  constructor
  · exact (claim_C7 envHappy ⟨none, none, none⟩ 0).1 "mock-app-token" rfl
  · exact (claim_C7 envNull ⟨some "old", some 5, some 3⟩ 0).2
      "Token refresh failed: Error: net down" rfl

/-- C9: a valid cached token shadows the override: when `isTokenValid`
holds, `getToken` returns the cached value, runs no refresh, and its
behaviour is identical under any two environments (so the override is
never consulted); consequently after a successful refresh, any environment
change is invisible until the record leaves its validity window. -/
theorem claim_C9 (envA envB : Env) (s : ManagerState) (now : Int)
    (hv : isTokenValid s now = true) :
    getToken envA s now = getToken envB s now
    ∧ (getToken envA s now).refreshed = false
    ∧ (getToken envA s now).networkCalls = 0
    ∧ (∀ t, s.token = some t → (getToken envA s now).result = .ok t)
    ∧ (∀ t (now' : Int), (doRefresh envA s now).result = .ok t →
        isTokenValid (doRefresh envA s now).state now' = true →
        (getToken envB (doRefresh envA s now).state now').result = .ok t
        ∧ (getToken envB (doRefresh envA s now).state now').refreshed = false) := by
  refine ⟨?_, ?_, ?_, ?_, ?_⟩
  · unfold getToken; rw [if_pos hv, if_pos hv]
  · unfold getToken; rw [if_pos hv]
  · unfold getToken; rw [if_pos hv]
  · intro t ht
    unfold getToken
    rw [if_pos hv]
    simp [ht]
  · intro t now' hres hv'
    obtain ⟨exp, hst⟩ := doRefresh_ok envA s now t hres
    unfold getToken
    rw [if_pos hv']
    refine ⟨?_, rfl⟩
    simp [hst]

/-- C9 witness: with a valid cached token, `getToken` under the
override-bearing environment equals `getToken` under a plain environment
and returns the cached value, not the override. -/
theorem claim_C9_witness :
    getToken envOverride ⟨some "cached", some 3300000, none⟩ 0 =
      getToken envNull ⟨some "cached", some 3300000, none⟩ 0
    ∧ (getToken envOverride ⟨some "cached", some 3300000, none⟩ 0).result = .ok "cached" := by
  have h := claim_C9 envOverride envNull ⟨some "cached", some 3300000, none⟩ 0 (by decide)
  exact ⟨h.1, h.2.2.2.1 "cached" rfl⟩

/-- C5: `exchangeForAppToken` fails exactly when the response has non-ok
status or both token fields of a successful response are falsy.  On non-ok
status the thrown message is the body's nested `error.message` when present
and "Unknown error" otherwise, and the emitted diagnostic line carries the
status code; on ok status the first non-empty of `token` and `app_token` is
returned, and when both are falsy the failure message is the fixed string
containing the phrase "token not found in response". -/
theorem claim_C5 (resp : HttpResponse) :
    (resp.ok = false →
      (exchangeForAppToken resp).result = .error (resp.errorMessage.getD "Unknown error")
      ∧ (exchangeForAppToken resp).logs =
        ["App token exchange failed: " ++ toString resp.status ++ " "
          ++ resp.statusText ++ " - " ++ resp.errorMessage.getD "Unknown error"])
    ∧ (resp.ok = true → truthy resp.token = none → truthy resp.app_token = none →
        (exchangeForAppToken resp).result = .error ("App " ++ "token not found in response"))
    ∧ (∀ t, resp.ok = true → truthy resp.token = some t →
        (exchangeForAppToken resp).result = .ok t)
    ∧ (∀ t, resp.ok = true → truthy resp.token = none → truthy resp.app_token = some t →
        (exchangeForAppToken resp).result = .ok t)
    ∧ ((∃ e, (exchangeForAppToken resp).result = .error e) ↔
        (resp.ok = false ∨ (truthy resp.token = none ∧ truthy resp.app_token = none))) := by
  refine ⟨?_, ?_, ?_, ?_, ?_⟩
  · intro h
    simp [exchangeForAppToken, h]
  · intro h1 h2 h3
    simp [exchangeForAppToken, h1, h2, h3]
  · intro t h1 h2
    simp [exchangeForAppToken, h1, h2]
  · intro t h1 h2 h3
    simp [exchangeForAppToken, h1, h2, h3]
  · cases h : resp.ok with
    | false =>
      simp [exchangeForAppToken, h]
    | true =>
      cases h2 : truthy resp.token with
      | some t => simp [exchangeForAppToken, h, h2]
      | none =>
        cases h3 : truthy resp.app_token with
        | some t => simp [exchangeForAppToken, h, h2, h3]
        | none => simp [exchangeForAppToken, h, h2, h3]

/-- C5 witness: a 500 response with a nested message fails with that
message and logs the status; an ok response with only the legacy field
returns it; an ok response with both fields empty fails with the
token-not-found message. -/
theorem claim_C5_witness :
    (exchangeForAppToken ⟨false, 500, "Internal", some "bad creds", none, none⟩).result =
      .error "bad creds"
    ∧ (exchangeForAppToken ⟨false, 500, "Internal", some "bad creds", none, none⟩).logs =
      ["App token exchange failed: 500 Internal - bad creds"]
    ∧ (exchangeForAppToken ⟨true, 200, "OK", none, none, some "legacy-tok"⟩).result =
      .ok "legacy-tok"
    ∧ (exchangeForAppToken ⟨true, 200, "OK", none, some "", some ""⟩).result =
      .error "App token not found in response" := by
  have h1 := (claim_C5 ⟨false, 500, "Internal", some "bad creds", none, none⟩).1 rfl
  have h3 := (claim_C5 ⟨true, 200, "OK", none, none, some "legacy-tok"⟩).2.2.2.1
    "legacy-tok" rfl rfl rfl
  have h4 := (claim_C5 ⟨true, 200, "OK", none, some "", some ""⟩).2.1 rfl rfl rfl
  refine ⟨h1.1, ?_, h3, h4⟩
  rw [h1.2]
  rfl

/-- C6: for a request issued through a produced client, a success passes
through unchanged with no refresh; a failure with a status other than
401/403 propagates unchanged with no refresh and no retry; and a 401/403
failure triggers exactly one refresh, one rewrite of the authorization
header to the new token, and exactly one retry whose outcome — success or
any failure, including a second 401/403 — is final. -/
theorem claim_C6 {A : Type} (refresh : Except String String)
    (req : Nat → Except (Option Nat) A) (auth0 : String) :
    (∀ a, req 1 = .ok a → requestHook refresh req auth0 =
      { result := .ok a, requestCalls := 1, refreshCalls := 0, authHeader := auth0 })
    ∧ (∀ st, req 1 = .error st → isAuthStatus st = false →
        requestHook refresh req auth0 =
          { result := .error (.request st), requestCalls := 1, refreshCalls := 0,
            authHeader := auth0 })
    ∧ (∀ st t, req 1 = .error st → isAuthStatus st = true → refresh = .ok t →
        (requestHook refresh req auth0).refreshCalls = 1
        ∧ (requestHook refresh req auth0).requestCalls = 2
        ∧ (requestHook refresh req auth0).authHeader = "token " ++ t
        ∧ (∀ a, req 2 = .ok a → (requestHook refresh req auth0).result = .ok a)
        ∧ (∀ st2, req 2 = .error st2 →
            (requestHook refresh req auth0).result = .error (.request st2))) := by
  refine ⟨?_, ?_, ?_⟩
  · intro a h
    simp [requestHook, h]
  · intro st h hst
    simp [requestHook, h, hst]
  · intro st t h hst hr
    refine ⟨?_, ?_, ?_, ?_, ?_⟩
    · cases hq2 : req 2 <;> simp [requestHook, h, hst, hr, hq2]
    · cases hq2 : req 2 <;> simp [requestHook, h, hst, hr, hq2]
    · cases hq2 : req 2 <;> simp [requestHook, h, hst, hr, hq2]
    · intro a ha
      simp [requestHook, h, hst, hr, ha]
    · intro st2 hst2
      simp [requestHook, h, hst, hr, hst2]

/-- C6 witness: a 401 on the first issuance with a successful refresh leads
to exactly one refresh, a rewritten header, one retry, and the retry's
result; a request that returns 401 again on the retry propagates that
error with no third issuance. -/
theorem claim_C6_witness :
    (requestHook (.ok "new-token") reqAuthOnce "token old").result = .ok 7
    ∧ (requestHook (.ok "new-token") reqAuthOnce "token old").requestCalls = 2
    ∧ (requestHook (.ok "new-token") reqAuthOnce "token old").refreshCalls = 1
    ∧ (requestHook (.ok "new-token") reqAuthOnce "token old").authHeader =
      "token " ++ "new-token"
    ∧ (requestHook (.ok "new-token") reqAuthAlways "token old").result =
      .error (.request (some 401))
    ∧ (requestHook (.ok "new-token") reqAuthAlways "token old").requestCalls = 2 := by
  have h1 := (claim_C6 (.ok "new-token") reqAuthOnce "token old").2.2
    (some 401) "new-token" rfl rfl rfl
  have h2 := (claim_C6 (.ok "new-token") reqAuthAlways "token old").2.2
    (some 401) "new-token" rfl rfl rfl
  exact ⟨h1.2.2.2.1 7 rfl, h1.2.1, h1.1, h1.2.2.1, h2.2.2.2.2 (some 401) rfl, h2.2.1⟩

/-- C8 counterexample: the claim says `resetInstance` leaves
`refreshPromise` unchanged; on a state whose `refreshPromise` is `some 7`
the field is `none` afterwards, so it is not unchanged. -/
theorem claim_C8_counterexample :
    ¬ ((resetInstance ⟨some "tok", some 1000, some 7⟩).refreshPromise =
        (⟨some "tok", some 1000, some 7⟩ : ManagerState).refreshPromise) := by
  decide

/-- C8 (amended): `resetInstance` clears the cached token, the expiry, and
also the in-flight refresh promise — all three fields are null afterwards,
whatever the prior state. -/
theorem claim_C8 (s : ManagerState) :
    resetInstance s = ⟨none, none, none⟩ :=
  rfl

/-! ## Lemmas about the refresh coordinator -/

theorem coordRun_append (s : CoordState) (l1 l2 : List CoordEv) :
    coordRun s (l1 ++ l2) = coordRun (coordRun s l1) l2 := by
  simp [coordRun, List.foldl_append]

theorem coordRun_join (cs : List Nat) :
    ∀ (s : CoordState) (r : Nat), s.inFlight = some r →
      coordRun s (cs.map .call) =
        { s with waiting := s.waiting ++ cs.map (fun c => (c, r)) } := by
  induction cs with
  | nil =>
    intro s r h
    cases s
    simp [coordRun]
  | cons c rest ih =>
    intro s r h
    obtain ⟨fi, ni, st, w, ob⟩ := s
    have hfi : fi = some r := h
    subst hfi
    simp only [List.map_cons, coordRun, List.foldl_cons, coordStep]
    have hrec := ih ⟨some r, ni, st, w ++ [(c, r)], ob⟩ r rfl
    simp only [coordRun] at hrec
    rw [hrec]
    simp

theorem filter_pair_keep (l : List Nat) (r : Nat) :
    (l.map (fun c => (c, r))).filter (fun p => p.2 == r) = l.map (fun c => (c, r)) := by
  induction l with
  | nil => rfl
  | cons a t ih => simp [List.filter_cons, ih]

theorem filter_pair_drop (l : List Nat) (r : Nat) :
    (l.map (fun c => (c, r))).filter (fun p => p.2 != r) = [] := by
  induction l with
  | nil => rfl
  | cons a t ih => simp [List.filter_cons, ih]

theorem map_pair_outcome (l : List Nat) (r : Nat) (o : Outcome) :
    (l.map (fun c => (c, r))).map (fun p => (p.1, o)) = l.map (fun c => (c, o)) := by
  simp [List.map_map]

/-- C1: single-flight refresh.  Any nonempty group of callers invoking
`refreshToken` during one refresh window starts exactly one underlying
`doRefresh` (`started = 1`); when the shared result settles — with success
or failure alike, `o` is arbitrary — every caller observes that identical
outcome, nobody is left waiting, and `refreshPromise` is unconditionally
reset to idle; and a caller arriving after the settlement starts fresh work
(`started` becomes 2), so a failed attempt's error is not cached or
replayed. -/
theorem claim_C1 (cs : List Nat) (o : Outcome) (c' : Nat) (h : cs ≠ []) :
    (coordRun coordInit (cs.map .call ++ [.settle o])).started = 1
    ∧ (coordRun coordInit (cs.map .call ++ [.settle o])).inFlight = none
    ∧ (coordRun coordInit (cs.map .call ++ [.settle o])).waiting = []
    ∧ (coordRun coordInit (cs.map .call ++ [.settle o])).observed =
      cs.map (fun c => (c, o))
    ∧ (coordRun coordInit (cs.map .call ++ [.settle o, .call c'])).started = 2 := by
  obtain ⟨c, rest, rfl⟩ : ∃ c rest, cs = c :: rest := by
    cases cs with
    | nil => exact absurd rfl h
    | cons a b => exact ⟨a, b, rfl⟩
  have hcalls : coordRun coordInit ((c :: rest).map .call) =
      ⟨some 0, 1, 1, (c :: rest).map (fun x => (x, 0)), []⟩ := by
    simp only [List.map_cons, coordRun, List.foldl_cons]
    have hstep : coordStep coordInit (.call c) = ⟨some 0, 1, 1, [(c, 0)], []⟩ := by
      simp [coordStep, coordInit]
    rw [hstep]
    have hrec := coordRun_join rest ⟨some 0, 1, 1, [(c, 0)], []⟩ 0 rfl
    simp only [coordRun] at hrec
    rw [hrec]
    simp
  have hsettle : coordRun coordInit ((c :: rest).map .call ++ [.settle o]) =
      ⟨none, 1, 1, [], (c :: rest).map (fun x => (x, o))⟩ := by
    rw [coordRun_append, hcalls]
    simp only [coordRun, List.foldl_cons, List.foldl_nil, coordStep]
    rw [filter_pair_drop (c :: rest) 0, filter_pair_keep (c :: rest) 0,
      map_pair_outcome (c :: rest) 0 o]
    simp
  refine ⟨by rw [hsettle], by rw [hsettle], by rw [hsettle], by rw [hsettle], ?_⟩
  have hsplit : (c :: rest).map CoordEv.call ++ [.settle o, .call c'] =
      ((c :: rest).map CoordEv.call ++ [.settle o]) ++ [.call c'] := by
    simp
  rw [hsplit, coordRun_append, hsettle]
  simp [coordRun, coordStep]

/-- C1 witness: three concurrent callers and a settlement give one started
refresh and three identical observations; after a failed settlement a
fourth caller starts fresh work. -/
theorem claim_C1_witness :
    (coordRun coordInit ([10, 11, 12].map .call ++ [.settle (.ok "tok")])).started = 1
    ∧ (coordRun coordInit ([10, 11, 12].map .call ++ [.settle (.ok "tok")])).observed =
      [(10, .ok "tok"), (11, .ok "tok"), (12, .ok "tok")]
    ∧ (coordRun coordInit
        ([10, 11, 12].map .call ++ [.settle (.error "boom"), .call 13])).started = 2 := by
  have h1 := claim_C1 [10, 11, 12] (.ok "tok") 13 (by simp)
  have h2 := claim_C1 [10, 11, 12] (.error "boom") 13 (by simp)
  refine ⟨h1.1, ?_, h2.2.2.2.2⟩
  rw [h1.2.2.2.1]
  rfl

end TokenMgr
